import Mathlib

/-!
Verification development for the bonus-tier loyalty service (src/main.py).

The service keeps, per user, a cumulative spending total and a bonus-level
name, and a catalog of bonus levels (name, minimum spending threshold).
We embed the core logic:

  * `BonusLevels` rows and the seeded catalog (main.py lines 29-46);
  * the current-level SQL query
    `filter(min_spending <= spending).order_by(min_spending.desc()).first()`
    (line 259) as `query_current`;
  * the next-level SQL query
    `filter(min_spending > spending).order_by(min_spending).first()`
    (line 179) as `query_next`;
  * the `add_spending` request handler (lines 243-269), with the request
    body value modelled as a JSON value (Python semantics: `bool` is a
    subtype of `int`, so `isinstance(True, (int, float))` holds);
  * the per-request seeding `init` (lines 35-46);
  * reachable account states, to express the persisted-tier invariant.

Monetary amounts are modelled as rationals (the JSON numbers the service
receives are finite decimals).
-/

/-- A row of the `BonusLevels` table (main.py lines 29-32). -/
structure BonusLevel where
  level_name : String
  min_spending : ℚ
  deriving DecidableEq, Repr

/-- The fixed seeded catalog (main.py lines 40-44). -/
def seededLevels : List BonusLevel :=
  [⟨"Silver", 1000⟩, ⟨"Gold", 5000⟩, ⟨"Platinum", 10000⟩]

/-- `ORDER BY min_spending DESC ... first()`: the element with the greatest
`min_spending` (thresholds are unique in the seeded catalog, so tie order
is irrelevant there). -/
def argmaxMin : List BonusLevel → Option BonusLevel
  | [] => none
  | l :: ls =>
    match argmaxMin ls with
    | none => some l
    | some m => some (if l.min_spending < m.min_spending then m else l)

/-- `ORDER BY min_spending ASC ... first()`: the element with the smallest
`min_spending`. -/
def argminMin : List BonusLevel → Option BonusLevel
  | [] => none
  | l :: ls =>
    match argminMin ls with
    | none => some l
    | some m => some (if m.min_spending < l.min_spending then m else l)

/-- The current-level query of main.py line 259:
`BonusLevels.query.filter(BonusLevels.min_spending <= spending)
 .order_by(BonusLevels.min_spending.desc()).first()`. -/
def query_current (spending : ℚ) (catalog : List BonusLevel) : Option BonusLevel :=
  argmaxMin (catalog.filter (fun l => decide (l.min_spending ≤ spending)))

/-- The next-level query of main.py line 179:
`BonusLevels.query.filter(BonusLevels.min_spending > spending)
 .order_by(BonusLevels.min_spending).first()`. -/
def query_next (spending : ℚ) (catalog : List BonusLevel) : Option BonusLevel :=
  argminMin (catalog.filter (fun l => decide (spending < l.min_spending)))

/-- The tier-resolution function of the spec: the name of the tier with the
greatest threshold not exceeding `spending`, falling back to the implicit
base tier, whose name in the source is the `User.level` column default
`"Bronze"` (main.py line 27). -/
def resolve_current (spending : ℚ) : String :=
  match query_current spending seededLevels with
  | some l => l.level_name
  | none => "Bronze"

/-- A row of the `User` table (main.py lines 22-27). -/
structure User where
  username : String
  password : String
  spending : ℚ
  level : String
  deriving DecidableEq, Repr

/-- A freshly registered user: column defaults `spending = 0.0`,
`level = "Bronze"` (main.py lines 26-27, 80). -/
def newUser (username password : String) : User :=
  { username := username, password := password, spending := 0, level := "Bronze" }

/-- A JSON value as deserialized by `request.json` for the
`spending_amount` field. -/
inductive JsonVal where
  | num (q : ℚ)
  | str (s : String)
  | jbool (b : Bool)
  | null
  deriving DecidableEq, Repr

/-- Python's numeric view used by line 252's
`isinstance(spending_amount, (int, float))`: a JSON number is numeric, and a
Python `bool` is an `int` (`True == 1`, `False == 0`); strings and `null`
are not numeric. -/
def toNumber : JsonVal → Option ℚ
  | .num q => some q
  | .jbool b => some (if b then 1 else 0)
  | _ => none

/-- The level update of main.py lines 259-261: the queried level name if the
query returns a row, otherwise the stored level is left unchanged. -/
def apply_level (spending : ℚ) (old : String) : String :=
  match query_current spending seededLevels with
  | some l => l.level_name
  | none => old

/-- The `add_spending` handler body for a found user (main.py lines 249-269):
validate the amount, add it to the user's spending, recompute the level, and
return the new spending and level. The first component is the persisted user
row after the request; the second is the response. -/
def add_spending (u : User) (v : JsonVal) : User × Except String (ℚ × String) :=
  match toNumber v with
  | none => (u, .error "Invalid spending amount")
  | some a =>
    if a ≤ 0 then (u, .error "Invalid spending amount")
    else
      let spending' := u.spending + a
      let level' := apply_level spending' u.level
      ({ u with spending := spending', level := level' }, .ok (spending', level'))

/-- The next-level payload of the `bonus` handler (main.py lines 179-183):
the next level's name paired with the remaining distance
`min_spending - spending`, or `none`. -/
def next_level_data (spending : ℚ) : Option (String × ℚ) :=
  match query_next spending seededLevels with
  | some l => some (l.level_name, l.min_spending - spending)
  | none => none

/-- The seeding step of the `init` hook (main.py lines 35-46): insert the
three fixed levels only when the catalog table is empty. -/
def init (catalog : List BonusLevel) : List BonusLevel :=
  if catalog.isEmpty then catalog ++ seededLevels else catalog

/-- Rank of a level name in the catalog's threshold order, the base tier
ranking below every seeded level. -/
def rank : String → ℕ
  | "Silver" => 1
  | "Gold" => 2
  | "Platinum" => 3
  | _ => 0

/-- Account states reachable through the service: registration creates a
user with the column defaults, and successful `add_spending` requests
update it. -/
inductive Reachable : User → Prop
  | created (username password : String) : Reachable (newUser username password)
  | accrued (u : User) (v : JsonVal) (r : ℚ × String) :
      Reachable u → (add_spending u v).2 = .ok r → Reachable (add_spending u v).1

/-! ### Closed forms of the two catalog queries -/

/-- Closed form of the current-level query over the seeded catalog. -/
lemma query_current_seeded (s : ℚ) :
    query_current s seededLevels =
      if 10000 ≤ s then some ⟨"Platinum", 10000⟩
      else if 5000 ≤ s then some ⟨"Gold", 5000⟩
      else if 1000 ≤ s then some ⟨"Silver", 1000⟩
      else none := by
  rcases lt_or_le s 1000 with h1 | h1
  · have h2 : ¬ (5000:ℚ) ≤ s := by linarith
    have h3 : ¬ (10000:ℚ) ≤ s := by linarith
    simp [query_current, seededLevels, argmaxMin, List.filter, h1.not_le, h2, h3]
  · rcases lt_or_le s 5000 with h2 | h2
    · have h3 : ¬ (10000:ℚ) ≤ s := by linarith
      simp [query_current, seededLevels, argmaxMin, List.filter, h1, h2.not_le, h3]
    · rcases lt_or_le s 10000 with h3 | h3
      · have h1' : (1000:ℚ) ≤ s := by linarith
        simp [query_current, seededLevels, argmaxMin, List.filter, h1', h2, h3.not_le]
        norm_num
      · have h1' : (1000:ℚ) ≤ s := by linarith
        have h2' : (5000:ℚ) ≤ s := by linarith
        simp [query_current, seededLevels, argmaxMin, List.filter, h1', h2', h3]
        norm_num

/-- Closed form of the next-level query over the seeded catalog. -/
lemma query_next_seeded (s : ℚ) :
    query_next s seededLevels =
      if s < 1000 then some ⟨"Silver", 1000⟩
      else if s < 5000 then some ⟨"Gold", 5000⟩
      else if s < 10000 then some ⟨"Platinum", 10000⟩
      else none := by
  rcases lt_or_le s 1000 with h1 | h1
  · have h2 : s < 5000 := by linarith
    have h3 : s < 10000 := by linarith
    simp [query_next, seededLevels, argminMin, List.filter, h1, h2, h3]
    norm_num
  · rcases lt_or_le s 5000 with h2 | h2
    · have h3 : s < 10000 := by linarith
      simp [query_next, seededLevels, argminMin, List.filter, h1.not_lt, h2, h3]
      norm_num
    · rcases lt_or_le s 10000 with h3 | h3
      · simp [query_next, seededLevels, argminMin, List.filter, h1.not_lt, h2.not_lt, h3]
      · simp [query_next, seededLevels, argminMin, List.filter, h1.not_lt, h2.not_lt, h3.not_lt]

/-- Closed form of tier resolution over the seeded catalog. -/
lemma resolve_current_closed (s : ℚ) :
    resolve_current s =
      if s < 1000 then "Bronze"
      else if s < 5000 then "Silver"
      else if s < 10000 then "Gold"
      else "Platinum" := by
  rw [resolve_current, query_current_seeded]
  rcases lt_or_le s 1000 with h1 | h1
  · have h2 : ¬ (5000:ℚ) ≤ s := by linarith
    have h3 : ¬ (10000:ℚ) ≤ s := by linarith
    simp [h1, h2, h3, h1.not_le]
  · rcases lt_or_le s 5000 with h2 | h2
    · have h3 : ¬ (10000:ℚ) ≤ s := by linarith
      simp [h1, h1.not_lt, h2, h2.not_le, h3]
    · rcases lt_or_le s 10000 with h3 | h3
      · simp [h1.not_lt, h2, h2.not_lt, h3, h3.not_le]
      · simp [h1.not_lt, h2.not_lt, h3, h3.not_lt]

/-! ### Behaviour of `add_spending` -/

/-- A valid amount makes `add_spending` take its success branch. -/
lemma add_spending_ok (u : User) (v : JsonVal) (a : ℚ)
    (hn : toNumber v = some a) (hpos : 0 < a) :
    add_spending u v =
      ({ u with
          spending := u.spending + a
          level := apply_level (u.spending + a) u.level },
       .ok (u.spending + a, apply_level (u.spending + a) u.level)) := by
  unfold add_spending
  rw [hn]
  simp [hpos.not_le]

/-- A non-numeric body value makes `add_spending` reject and leave the row
as is. -/
lemma add_spending_err_of_none (u : User) (v : JsonVal)
    (hn : toNumber v = none) :
    add_spending u v = (u, .error "Invalid spending amount") := by
  unfold add_spending
  rw [hn]

/-- A non-positive amount makes `add_spending` reject and leave the row
as is. -/
lemma add_spending_err_of_nonpos (u : User) (v : JsonVal) (a : ℚ)
    (hn : toNumber v = some a) (ha : a ≤ 0) :
    add_spending u v = (u, .error "Invalid spending amount") := by
  unfold add_spending
  rw [hn]
  simp [ha]

/-- When the stored level agrees with resolution at some earlier spending
value, the fallback-preserving update yields exactly the resolved level at
the larger value. -/
lemma apply_level_resolve (s₀ s : ℚ) (h : s₀ ≤ s) :
    apply_level s (resolve_current s₀) = resolve_current s := by
  unfold apply_level resolve_current
  rw [query_current_seeded s, query_current_seeded s₀]
  rcases lt_or_le s 1000 with h1 | h1
  · have h2 : ¬ (5000:ℚ) ≤ s := by linarith
    have h3 : ¬ (10000:ℚ) ≤ s := by linarith
    have g1 : ¬ (1000:ℚ) ≤ s₀ := by linarith
    have g2 : ¬ (5000:ℚ) ≤ s₀ := by linarith
    have g3 : ¬ (10000:ℚ) ≤ s₀ := by linarith
    simp [h1.not_le, h2, h3, g1, g2, g3]
  · rcases lt_or_le s 5000 with h2 | h2
    · have h3 : ¬ (10000:ℚ) ≤ s := by linarith
      simp [h1, h2.not_le, h3]
    · rcases lt_or_le s 10000 with h3 | h3
      · have h1' : (1000:ℚ) ≤ s := by linarith
        simp [h1', h2, h3.not_le]
      · have h2' : (5000:ℚ) ≤ s := by linarith
        simp [h2', h3]

/-- Resolution at 0 is the base tier. -/
lemma resolve_current_zero : resolve_current 0 = "Bronze" := by
  rw [resolve_current_closed]
  norm_num

/-- Every reachable account row has non-negative spending and a stored
level equal to the resolution of its stored spending. -/
lemma reachable_inv (u : User) (h : Reachable u) :
    0 ≤ u.spending ∧ u.level = resolve_current u.spending := by
  induction h with
  | created username password =>
    refine ⟨le_refl 0, ?_⟩
    show "Bronze" = resolve_current 0
    rw [resolve_current_zero]
  | accrued u v r hu hok ih =>
    rcases hv : toNumber v with _ | a
    · rw [add_spending_err_of_none u v hv] at hok
      exact absurd hok (by simp)
    · rcases le_or_lt a 0 with ha | ha
      · rw [add_spending_err_of_nonpos u v a hv ha] at hok
        exact absurd hok (by simp)
      · rw [add_spending_ok u v a hv ha]
        refine ⟨by simp; linarith [ih.1], ?_⟩
        show apply_level (u.spending + a) u.level = resolve_current (u.spending + a)
        rw [ih.2]
        exact apply_level_resolve u.spending (u.spending + a) (by linarith)

/-- Resolution rank is monotone in spending. -/
lemma rank_resolve_mono (s t : ℚ) (h : s ≤ t) :
    rank (resolve_current s) ≤ rank (resolve_current t) := by
  rw [resolve_current_closed s, resolve_current_closed t]
  split_ifs <;> simp [rank] <;> linarith

/-! ### Claim theorems -/

/-- Claim C1: over the seeded catalog, tier resolution returns the tier with
the greatest threshold not exceeding the spending — the base tier for
`s < 1000`, Silver on `[1000, 5000)`, Gold on `[5000, 10000)`, Platinum from
`10000` — with exact boundaries (`1000` resolves to Silver, `999.999` to the
base tier), and it always returns one of the four tier names, never
nothing. -/
theorem claim_C1 (s : ℚ) (hs : 0 ≤ s) :
    resolve_current s =
      (if s < 1000 then "Bronze" else if s < 5000 then "Silver"
       else if s < 10000 then "Gold" else "Platinum")
    ∧ (resolve_current s = "Bronze" ∨ resolve_current s = "Silver"
       ∨ resolve_current s = "Gold" ∨ resolve_current s = "Platinum")
    ∧ resolve_current (1000 : ℚ) = "Silver"
    ∧ resolve_current (999999/1000 : ℚ) = "Bronze" := by
  refine ⟨resolve_current_closed s, ?_, ?_, ?_⟩
  · rw [resolve_current_closed]
    split_ifs <;> simp
  · rw [resolve_current_closed]
    norm_num
  · rw [resolve_current_closed]
    norm_num

/-- Witness for C1 at spending 0. -/
theorem claim_C1_witness :
    resolve_current (0:ℚ) =
      (if (0:ℚ) < 1000 then "Bronze" else if (0:ℚ) < 5000 then "Silver"
       else if (0:ℚ) < 10000 then "Gold" else "Platinum")
    ∧ (resolve_current (0:ℚ) = "Bronze" ∨ resolve_current (0:ℚ) = "Silver"
       ∨ resolve_current (0:ℚ) = "Gold" ∨ resolve_current (0:ℚ) = "Platinum")
    ∧ resolve_current (1000 : ℚ) = "Silver"
    ∧ resolve_current (999999/1000 : ℚ) = "Bronze" :=
  claim_C1 0 (le_refl 0)

/-- Claim C3: on an account in a service-reachable state, a valid amount
`a > 0` makes `add_spending` succeed, set spending to the old value plus
`a`, set the level to the tier resolved at the new spending, and return
exactly that spending and tier name. -/
theorem claim_C3 (u : User) (v : JsonVal) (a : ℚ)
    (hn : toNumber v = some a) (hpos : 0 < a) (hu : Reachable u) :
    add_spending u v =
      ({ u with
          spending := u.spending + a
          level := resolve_current (u.spending + a) },
       Except.ok (u.spending + a, resolve_current (u.spending + a))) := by
  rw [add_spending_ok u v a hn hpos]
  have hinv := (reachable_inv u hu).2
  have hlv : apply_level (u.spending + a) u.level = resolve_current (u.spending + a) := by
    rw [hinv]
    exact apply_level_resolve u.spending (u.spending + a) (by linarith)
  rw [hlv]

/-- Witness for C3: a fresh account accruing 1200. -/
theorem claim_C3_witness :
    add_spending (newUser "alice" "pw") (JsonVal.num 1200) =
      ({ newUser "alice" "pw" with
          spending := (newUser "alice" "pw").spending + 1200
          level := resolve_current ((newUser "alice" "pw").spending + 1200) },
       Except.ok ((newUser "alice" "pw").spending + 1200,
         resolve_current ((newUser "alice" "pw").spending + 1200))) :=
  claim_C3 (newUser "alice" "pw") (JsonVal.num 1200) 1200 rfl (by norm_num)
    (Reachable.created "alice" "pw")

/-- Claim C5: immediately after every write — creation with spending 0 and
the base level, and every successful accrual — the persisted level equals
the tier resolved from the persisted spending. -/
theorem claim_C5 (u : User) (hu : Reachable u) :
    u.level = resolve_current u.spending :=
  (reachable_inv u hu).2

/-- Witness for C5 at a freshly created account. -/
theorem claim_C5_witness :
    (newUser "alice" "pw").level = resolve_current (newUser "alice" "pw").spending :=
  claim_C5 (newUser "alice" "pw") (Reachable.created "alice" "pw")

/-- Claim C6: on a reachable account, every successful accrual strictly
increases the cumulative spending, never decreases the rank of the stored
level, and spending is non-negative throughout the lifetime. -/
theorem claim_C6 (u : User) (v : JsonVal) (r : ℚ × String)
    (hu : Reachable u) (hok : (add_spending u v).2 = Except.ok r) :
    0 ≤ u.spending
    ∧ u.spending < (add_spending u v).1.spending
    ∧ rank u.level ≤ rank (add_spending u v).1.level := by
  obtain ⟨hnn, hinv⟩ := reachable_inv u hu
  rcases hv : toNumber v with _ | a
  · rw [add_spending_err_of_none u v hv] at hok
    exact absurd hok (by simp)
  · rcases le_or_lt a 0 with ha | ha
    · rw [add_spending_err_of_nonpos u v a hv ha] at hok
      exact absurd hok (by simp)
    · rw [add_spending_ok u v a hv ha]
      refine ⟨hnn, ?_, ?_⟩
      · show u.spending < u.spending + a
        linarith
      · show rank u.level ≤ rank (apply_level (u.spending + a) u.level)
        rw [hinv, apply_level_resolve u.spending (u.spending + a) (by linarith)]
        exact rank_resolve_mono u.spending (u.spending + a) (by linarith)

/-- Witness for C6: a fresh account accruing 1200. -/
theorem claim_C6_witness :
    0 ≤ (newUser "alice" "pw").spending
    ∧ (newUser "alice" "pw").spending
        < (add_spending (newUser "alice" "pw") (JsonVal.num 1200)).1.spending
    ∧ rank (newUser "alice" "pw").level
        ≤ rank (add_spending (newUser "alice" "pw") (JsonVal.num 1200)).1.level :=
  claim_C6 (newUser "alice" "pw") (JsonVal.num 1200)
    ((newUser "alice" "pw").spending + 1200,
      apply_level ((newUser "alice" "pw").spending + 1200) (newUser "alice" "pw").level)
    (Reachable.created "alice" "pw")
    (by rw [add_spending_ok (newUser "alice" "pw") (JsonVal.num 1200) 1200 rfl (by norm_num)])

/-- Claim C7: seeding inserts the three fixed levels only into an empty
catalog, so it is idempotent; running it on an empty catalog (once or
twice) yields exactly the 3 seeded levels with no duplicate names or
thresholds. -/
theorem claim_C7 :
    (∀ catalog : List BonusLevel, init (init catalog) = init catalog)
    ∧ init (init ([] : List BonusLevel)) = seededLevels
    ∧ (init ([] : List BonusLevel)).length = 3
    ∧ ((init ([] : List BonusLevel)).map BonusLevel.level_name).Nodup
    ∧ ((init ([] : List BonusLevel)).map BonusLevel.min_spending).Nodup := by
  refine ⟨?_, rfl, rfl, ?_, ?_⟩
  · intro catalog
    cases catalog with
    | nil => rfl
    | cons l ls => rfl
  · simp [init, seededLevels]
  · simp [init, seededLevels]

/-- Claim C9: the validation accepts Python booleans (`True` is an `int`
equal to 1), so a request body of JSON `true` succeeds and increases the
account's spending by exactly 1 rather than failing. -/
theorem claim_C9 (u : User) :
    toNumber (JsonVal.jbool true) = some 1
    ∧ (add_spending u (JsonVal.jbool true)).1.spending = u.spending + 1
    ∧ (add_spending u (JsonVal.jbool true)).2 =
        Except.ok (u.spending + 1, apply_level (u.spending + 1) u.level) := by
  refine ⟨rfl, ?_, ?_⟩
  · rw [add_spending_ok u (JsonVal.jbool true) 1 rfl (by norm_num)]
  · rw [add_spending_ok u (JsonVal.jbool true) 1 rfl (by norm_num)]

/-- Claim C10: when the new spending stays below every seeded threshold
(below 1000), the accrual updates the spending but leaves the stored level
field unchanged, so a fresh account keeps its creation default "Bronze". -/
theorem claim_C10 (u : User) (v : JsonVal) (a : ℚ)
    (hn : toNumber v = some a) (hpos : 0 < a) (hlt : u.spending + a < 1000) :
    (add_spending u v).1.level = u.level
    ∧ (add_spending u v).1.spending = u.spending + a
    ∧ (u.level = "Bronze" → (add_spending u v).1.level = "Bronze") := by
  rw [add_spending_ok u v a hn hpos]
  have hq : query_current (u.spending + a) seededLevels = none := by
    rw [query_current_seeded]
    have h2 : ¬ (5000:ℚ) ≤ u.spending + a := by linarith
    have h3 : ¬ (10000:ℚ) ≤ u.spending + a := by linarith
    have h1 : ¬ (1000:ℚ) ≤ u.spending + a := by linarith
    simp [h1, h2, h3]
  have hlv : apply_level (u.spending + a) u.level = u.level := by
    unfold apply_level
    rw [hq]
  refine ⟨hlv, rfl, ?_⟩
  intro hb
  show apply_level (u.spending + a) u.level = "Bronze"
  rw [hlv, hb]

/-- Witness for C10: a fresh account accruing 500 stays "Bronze". -/
theorem claim_C10_witness :
    (add_spending (newUser "bob" "pw") (JsonVal.num 500)).1.level = (newUser "bob" "pw").level
    ∧ (add_spending (newUser "bob" "pw") (JsonVal.num 500)).1.spending
        = (newUser "bob" "pw").spending + 500
    ∧ (add_spending (newUser "bob" "pw") (JsonVal.num 500)).1.level = "Bronze" := by
  have h := claim_C10 (newUser "bob" "pw") (JsonVal.num 500) 500 rfl (by norm_num)
    (by norm_num [newUser])
  exact ⟨h.1, h.2.1, h.2.2 rfl⟩

/-- Claim C2: over the seeded catalog, the next-level query returns none
exactly when spending is at least 10000; otherwise it returns the seeded
tier with the smallest threshold strictly above the spending, and the
`bonus` payload pairs it with the strictly positive remaining distance
`min_spending - spending`. -/
theorem claim_C2 (s : ℚ) :
    (query_next s seededLevels = none ↔ 10000 ≤ s)
    ∧ ∀ l : BonusLevel, query_next s seededLevels = some l →
        l ∈ seededLevels ∧ s < l.min_spending
        ∧ (∀ l2 ∈ seededLevels, s < l2.min_spending → l.min_spending ≤ l2.min_spending)
        ∧ next_level_data s = some (l.level_name, l.min_spending - s)
        ∧ 0 < l.min_spending - s := by
  rcases lt_or_le s 1000 with h1 | h1
  · have hqs : query_next s seededLevels = some ⟨"Silver", 1000⟩ := by
      rw [query_next_seeded]
      simp [h1]
    refine ⟨?_, ?_⟩
    · rw [hqs]
      exact ⟨fun h => absurd h (by simp), fun h => absurd h (by linarith)⟩
    · intro l hl
      rw [hqs] at hl
      injection hl with hl
      subst hl
      refine ⟨by simp [seededLevels], h1, ?_, ?_, by show (0:ℚ) < 1000 - s; linarith⟩
      · intro l2 h2 hgt
        simp [seededLevels] at h2
        rcases h2 with rfl | rfl | rfl <;> norm_num
      · unfold next_level_data
        rw [hqs]
  · rcases lt_or_le s 5000 with h2 | h2
    · have hqs : query_next s seededLevels = some ⟨"Gold", 5000⟩ := by
        rw [query_next_seeded]
        simp [h1.not_lt, h2]
      refine ⟨?_, ?_⟩
      · rw [hqs]
        exact ⟨fun h => absurd h (by simp), fun h => absurd h (by linarith)⟩
      · intro l hl
        rw [hqs] at hl
        injection hl with hl
        subst hl
        refine ⟨by simp [seededLevels], h2, ?_, ?_, by show (0:ℚ) < 5000 - s; linarith⟩
        · intro l2 hm hgt
          simp [seededLevels] at hm
          rcases hm with rfl | rfl | rfl
          · exact absurd hgt (by simp; linarith)
          · norm_num
          · norm_num
        · unfold next_level_data
          rw [hqs]
    · rcases lt_or_le s 10000 with h3 | h3
      · have hqs : query_next s seededLevels = some ⟨"Platinum", 10000⟩ := by
          rw [query_next_seeded]
          simp [h1.not_lt, h2.not_lt, h3]
        refine ⟨?_, ?_⟩
        · rw [hqs]
          exact ⟨fun h => absurd h (by simp), fun h => absurd h (by linarith)⟩
        · intro l hl
          rw [hqs] at hl
          injection hl with hl
          subst hl
          refine ⟨by simp [seededLevels], h3, ?_, ?_, by show (0:ℚ) < 10000 - s; linarith⟩
          · intro l2 hm hgt
            simp [seededLevels] at hm
            rcases hm with rfl | rfl | rfl
            · exact absurd hgt (by simp; linarith)
            · exact absurd hgt (by simp; linarith)
            · norm_num
          · unfold next_level_data
            rw [hqs]
      · have hqn : query_next s seededLevels = none := by
          rw [query_next_seeded]
          simp [h1.not_lt, h2.not_lt, h3.not_lt]
        refine ⟨⟨fun _ => h3, fun _ => hqn⟩, ?_⟩
        intro l hl
        rw [hqn] at hl
        exact absurd hl (by simp)

/-- Witness for C2 at spending 500: next level is Silver, 500 away. -/
theorem claim_C2_witness :
    (⟨"Silver", 1000⟩ : BonusLevel) ∈ seededLevels
    ∧ (500:ℚ) < (1000:ℚ)
    ∧ (1000:ℚ) ≤ (5000:ℚ)
    ∧ next_level_data 500 = some ("Silver", (1000:ℚ) - 500)
    ∧ (0:ℚ) < (1000:ℚ) - 500 := by
  have h := (claim_C2 500).2 ⟨"Silver", 1000⟩ (by rw [query_next_seeded]; norm_num)
  exact ⟨h.1, h.2.1, h.2.2.1 ⟨"Gold", 5000⟩ (by simp [seededLevels]) (by norm_num),
    h.2.2.2.1, h.2.2.2.2⟩

/-- Claim C4: an accrual amount is accepted exactly when it is numeric in
Python's sense and strictly positive; amount 0, amount -5 and a string
amount are all rejected with the invalid-amount error, and every rejection
leaves the account row unchanged. -/
theorem claim_C4 (u : User) :
    add_spending u (JsonVal.num 0) = (u, Except.error "Invalid spending amount")
    ∧ add_spending u (JsonVal.num (-5)) = (u, Except.error "Invalid spending amount")
    ∧ add_spending u (JsonVal.str "abc") = (u, Except.error "Invalid spending amount")
    ∧ (∀ v : JsonVal, (∃ r, (add_spending u v).2 = Except.ok r) ↔
        ∃ a : ℚ, toNumber v = some a ∧ 0 < a)
    ∧ ∀ v : JsonVal, (add_spending u v).2 = Except.error "Invalid spending amount" →
        (add_spending u v).1 = u := by
  refine ⟨?_, ?_, ?_, ?_, ?_⟩
  · exact add_spending_err_of_nonpos u _ 0 rfl le_rfl
  · exact add_spending_err_of_nonpos u _ (-5) rfl (by norm_num)
  · exact add_spending_err_of_none u _ rfl
  · intro v
    constructor
    · rintro ⟨r, hr⟩
      rcases hv : toNumber v with _ | a
      · rw [add_spending_err_of_none u v hv] at hr
        exact absurd hr (by simp)
      · rcases le_or_lt a 0 with ha | ha
        · rw [add_spending_err_of_nonpos u v a hv ha] at hr
          exact absurd hr (by simp)
        · exact ⟨a, rfl, ha⟩
    · rintro ⟨a, ha, hpos⟩
      refine ⟨(u.spending + a, apply_level (u.spending + a) u.level), ?_⟩
      rw [add_spending_ok u v a ha hpos]
  · intro v hv
    rcases hn : toNumber v with _ | a
    · rw [add_spending_err_of_none u v hn]
    · rcases le_or_lt a 0 with ha | ha
      · rw [add_spending_err_of_nonpos u v a hn ha]
      · rw [add_spending_ok u v a hn ha] at hv
        exact absurd hv (by simp)

/-- Witness for C4 on a concrete account, including acceptance of amount 7
and the unchanged row after the amount-0 rejection. -/
theorem claim_C4_witness :
    add_spending (newUser "bob" "pw") (JsonVal.num 0)
      = (newUser "bob" "pw", Except.error "Invalid spending amount")
    ∧ add_spending (newUser "bob" "pw") (JsonVal.num (-5))
      = (newUser "bob" "pw", Except.error "Invalid spending amount")
    ∧ add_spending (newUser "bob" "pw") (JsonVal.str "abc")
      = (newUser "bob" "pw", Except.error "Invalid spending amount")
    ∧ ((∃ r, (add_spending (newUser "bob" "pw") (JsonVal.num 7)).2 = Except.ok r) ↔
        ∃ a : ℚ, toNumber (JsonVal.num 7) = some a ∧ 0 < a)
    ∧ (add_spending (newUser "bob" "pw") (JsonVal.num 0)).1 = newUser "bob" "pw" := by
  have h := claim_C4 (newUser "bob" "pw")
  exact ⟨h.1, h.2.1, h.2.2.1, h.2.2.2.1 (JsonVal.num 7),
    h.2.2.2.2 (JsonVal.num 0) (by rw [h.1])⟩
